import Mathlib

/-!
Verification of the PyTunes YouTube-playlist-to-MP3 archiver (`cli.py`).

The per-item processing pipeline of `YouTubeMP3Archiver` is shallowly
embedded: python strings become `List Char`, the concrete regular
expressions of the source are compiled by hand into executable Lean
functions with the exact backtracking semantics of `re`, dictionaries
returned by the iTunes lookup become a structure carrying the six keys
the source always populates, and all external effects (yt-dlp download,
HTTP calls, mutagen tag I/O, the filesystem move) are oracles collected
in an `Env` record.  An oracle returning `none` (or a raise flag being
`true`) models the corresponding exception or missing result.
-/

set_option autoImplicit false
set_option maxRecDepth 8000

namespace PyTunes

/-- Strings are modelled as lists of characters. -/
abbrev Str := List Char

/-- Bytes of a downloaded cover image, kept abstract. -/
abbrev Bytes := List Nat

/-- Coerce a Lean string literal to the character-list model. -/
def toL (s : String) : Str := s.data

/-- ASCII whitespace: the characters matched by the regex class `\s`
and stripped by `str.strip()`.  Unicode whitespace is not modelled; the
behaviour established here only depends on the ASCII fragment. -/
def isWs (c : Char) : Bool :=
  c = ' ' || c = '\t' || c = '\n' || c = '\r' || c = '\x0b' || c = '\x0c'

/-- Characters removed by `clean_filename`, from `re.sub(r'[<>:"/\\|?*]', '', _)`. -/
def invalidChars : List Char := ['<', '>', ':', '\"', '/', '\\', '|', '?', '*']

/-- Model of `re.sub(r'[<>:"/\\|?*]', '', s)`: drop every invalid character. -/
def removeInvalid (s : Str) : Str := s.filter (fun c => !(invalidChars.contains c))

/-- Model of `re.sub(r'\s+', ' ', s)`: each maximal run of whitespace
becomes a single space. -/
def collapseWs : Str → Str
  | [] => []
  | [c] => [if isWs c then ' ' else c]
  | c1 :: c2 :: rest =>
    if isWs c1 && isWs c2 then collapseWs (c2 :: rest)
    else (if isWs c1 then ' ' else c1) :: collapseWs (c2 :: rest)

/-- Model of `str.strip()`: drop leading and trailing whitespace. -/
def stripWs (s : Str) : Str :=
  ((s.dropWhile isWs).reverse.dropWhile isWs).reverse

/-- Model of `str.strip('.')`: drop leading and trailing dots. -/
def stripDots (s : Str) : Str :=
  ((s.dropWhile (fun c => c = '.')).reverse.dropWhile (fun c => c = '.')).reverse

/-- Embedding of `clean_filename` from the source: remove invalid
characters, collapse whitespace runs, strip surrounding whitespace,
then surrounding dots, and finally truncate to 200 characters. -/
def clean_filename (filename : Str) : Str :=
  let s1 := removeInvalid filename
  let s2 := stripDots (stripWs (collapseWs s1))
  if s2.length > 200 then s2.take 200 else s2

/-- Backtracking tail of `\s*(.+)$`: the greedy `\s*` tries the prefix
of length `k` first and shrinks on failure; the group `(.+)` must be
non-empty and `.` does not match a newline. -/
def tailGroupAux (r2 : Str) : Nat → Option Str
  | 0 => if r2 ≠ [] && !(r2.contains '\n') then some r2 else none
  | k + 1 =>
    let t := r2.drop (k + 1)
    if t ≠ [] && !(t.contains '\n') then some t else tailGroupAux r2 k

/-- Match `\s*(.+)$` against `r2`, returning group 2. -/
def matchTailGroup (r2 : Str) : Option Str :=
  tailGroupAux r2 (r2.takeWhile isWs).length

/-- Match `\s*[sep]\s*(.+)$` against the remainder after group 1.  The
`\s*` before the separator is effectively maximal because no separator
character is itself whitespace, so shorter whitespace runs always put a
whitespace character where the separator is required. -/
def matchSepRest (seps : List Char) (rest : Str) : Option Str :=
  match rest.dropWhile isWs with
  | [] => none
  | c :: r2 => if seps.contains c then matchTailGroup r2 else none

/-- Lazy group 1 of `^(.+?)\s*[sep]\s*(.+)$`: grow the prefix one
character at a time (never across a newline, which `.` does not match)
and accept the first split whose remainder matches. -/
def matchSepAux (seps : List Char) (racc : Str) : Str → Option (Str × Str)
  | [] => none
  | c :: rest =>
    if c = '\n' then none
    else
      match matchSepRest seps rest with
      | some t => some ((c :: racc).reverse, t)
      | none => matchSepAux seps (c :: racc) rest

/-- Model of `re.match(r'^(.+?)\s*[sep]\s*(.+)$', s)`, returning the two
groups of the leftmost-lazy match. -/
def reMatchSep (seps : List Char) (s : Str) : Option (Str × Str) :=
  matchSepAux seps [] s

/-- Dash separators of the first pattern: hyphen, en dash, em dash. -/
def dashSeps : List Char := ['-', '–', '—']

/-- Union of the separator characters of the three patterns. -/
def sepChars : List Char := ['-', '–', '—', ':', '|']

/-- Whether some position holds the closing bracket `cl` with only
whitespace after it and no newline before it: this is where the lazy
`.*?` of the suffix-stripping regex can stop. -/
def hasValidClose (cl : Char) : Str → Bool
  | [] => false
  | c :: rest =>
    if c = cl && rest.all isWs then true
    else if c = '\n' then false
    else hasValidClose cl rest

/-- Whether `\s*\(.*?\)\s*$` (with `op` and `cl` the bracket pair)
matches starting at the head of `s`. -/
def startsMatch (op cl : Char) (s : Str) : Bool :=
  match s.dropWhile isWs with
  | c :: tail => c = op && hasValidClose cl tail
  | [] => false

/-- Scan left to right for the leftmost start of a suffix match; on a
match everything from there to the end of the string is removed. -/
def stripEncAux (op cl : Char) : Str → Str → Str
  | acc, [] => acc.reverse
  | acc, c :: rest =>
    if startsMatch op cl (c :: rest) then acc.reverse
    else stripEncAux op cl (c :: acc) rest

/-- Model of `re.sub(r'\s*\(.*?\)\s*$', '', s)` (and of the bracketed
variant): remove the leftmost region that starts, after optional
whitespace, at an opening bracket and is closed by a closing bracket
followed only by whitespace up to the end of the string. -/
def stripEnclosedSuffix (op cl : Char) (s : Str) : Str :=
  stripEncAux op cl [] s

/-- Both suffix substitutions of `extract_artist_title`, in source
order: parenthesized first, then bracketed. -/
def stripSuffixes (t : Str) : Str :=
  stripEnclosedSuffix '[' ']' (stripEnclosedSuffix '(' ')' t)

/-- Embedding of `extract_artist_title`: try the dash pattern, then
colon, then pipe against the stripped raw title; on a match both groups
are stripped and the title goes through the two suffix substitutions;
if no pattern matches, the artist is empty and the title is the
stripped raw title. -/
def extract_artist_title (videoTitle : Str) : Str × Str :=
  match reMatchSep dashSeps (stripWs videoTitle) with
  | some (g1, g2) => (stripWs g1, stripSuffixes (stripWs g2))
  | none =>
    match reMatchSep [':'] (stripWs videoTitle) with
    | some (g1, g2) => (stripWs g1, stripSuffixes (stripWs g2))
    | none =>
      match reMatchSep ['|'] (stripWs videoTitle) with
      | some (g1, g2) => (stripWs g1, stripSuffixes (stripWs g2))
      | none => ([], stripWs videoTitle)

/-- One candidate of the iTunes search response, with exactly the JSON
keys the source reads; `none` models a key missing from the JSON. -/
structure RawResult where
  trackName : Option Str
  artistName : Option Str
  collectionName : Option Str
  primaryGenreName : Option Str
  releaseDate : Option Str
  artworkUrl100 : Option Str
deriving DecidableEq

/-- Parsed JSON body of the iTunes search response. -/
structure ItunesResponse where
  results : List RawResult
deriving DecidableEq

/-- Dictionary built by `search_itunes_metadata`; the source always
populates all six keys, so none of them is optional here. -/
structure Metadata where
  title : Str
  artist : Str
  album : Str
  genre : Str
  year : Str
  artwork_url : Str
deriving DecidableEq

/-- Model of `.replace('100x100', '600x600')`: python `str.replace`
substitutes every non-overlapping occurrence, scanning left to right. -/
def replace100x100 : Str → Str
  | '1' :: '0' :: '0' :: 'x' :: '1' :: '0' :: '0' :: rest =>
    '6' :: '0' :: '0' :: 'x' :: '6' :: '0' :: '0' :: replace100x100 rest
  | c :: rest => c :: replace100x100 rest
  | [] => []

/-- Mapping of the first search result onto the metadata dictionary, as
written in `search_itunes_metadata`: `trackName` and `artistName` fall
back to the input title and artist when the key is absent, `year` is
the first four characters of a present non-empty release date, and the
artwork URL has its size token upscaled. -/
def normalizeResult (title artist : Str) (r : RawResult) : Metadata :=
  { title := r.trackName.getD title
    artist := r.artistName.getD artist
    album := r.collectionName.getD []
    genre := r.primaryGenreName.getD []
    year :=
      match r.releaseDate with
      | some d => if d ≠ [] then d.take 4 else []
      | none => []
    artwork_url := replace100x100 (r.artworkUrl100.getD []) }

/-- Outcome mapping of `search_itunes_metadata` on the response: `none`
stands for a network failure or timeout (the caught exception), an
empty result list yields no metadata, and otherwise the first candidate
is taken. -/
def resolveResponse (title artist : Str) (resp : Option ItunesResponse) : Option Metadata :=
  match resp with
  | none => none
  | some data =>
    match data.results with
    | [] => none
    | r :: _ => some (normalizeResult title artist r)

/-- ASCII approximation of the regex class `\w`: letters, digits and
underscore. -/
def isWordChar (c : Char) : Bool := c.isAlphanum || c = '_'

/-- Search-term cleaning of `search_itunes_metadata`: concatenate
artist and title, strip, turn every non-word non-whitespace character
into a space, collapse whitespace and strip again. -/
def cleanSearchTerm (title artist : Str) : Str :=
  let s1 := stripWs (artist ++ [' '] ++ title)
  let s2 := s1.map (fun c => if isWordChar c || isWs c then c else ' ')
  stripWs (collapseWs s2)

/-- One playlist entry as used by the source: only its title dictionary
entry is read by the modelled pipeline (`none` when the key is absent). -/
structure Video where
  title : Option Str

/-- Handle to a downloaded audio file. -/
structure AudioFile where
  name : Str
deriving DecidableEq

/-- Oracles for all external effects of one playlist run.  A `none`
result (or a `true` raise flag) stands for the corresponding exception
or missing value in the source. -/
structure Env where
  download : Video → Option AudioFile
  fileExists : AudioFile → Bool
  itunesResponse : Str → Option ItunesResponse
  coverArt : Str → Option Bytes
  geniusConfigured : Bool
  lyrics : Str → Str → Option Str
  tagOpenRaises : AudioFile → Bool
  tagSaveRaises : AudioFile → Bool
  moveRaises : AudioFile → Str → Bool

/-- Embedding of `search_itunes_metadata`: issue the query for the
cleaned search term and map the response; every exception path of the
source yields `none`. -/
def search_itunes_metadata (env : Env) (title artist : Str) : Option Metadata :=
  resolveResponse title artist (env.itunesResponse (cleanSearchTerm title artist))

/-- Merge of the parsed title with the lookup result, as written in the
source: `metadata.get('title', title)`.  The dictionary built by
`search_itunes_metadata` always carries the key, so a present record
overrides even with an empty value. -/
def mergedTitle (parsedTitle : Str) : Option Metadata → Str
  | some m => m.title
  | none => parsedTitle

/-- Merge of the parsed artist with the lookup result, as written in
the source: `metadata.get('artist', artist)`. -/
def mergedArtist (parsedArtist : Str) : Option Metadata → Str
  | some m => m.artist
  | none => parsedArtist

/-- ID3 frames written by `add_metadata_to_mp3`. -/
inductive Tag where
  | TIT2 (text : Str)
  | TPE1 (text : Str)
  | TALB (text : Str)
  | TCON (text : Str)
  | TDRC (text : Str)
  | APIC (data : Bytes)
  | USLT (text : Str)
deriving DecidableEq

/-- Basic frames in source order: the title frame is added with no
guard, the other four only behind a non-emptiness check. -/
def writeBasicTags (title artist album genre year : Str) : List Tag :=
  [Tag.TIT2 title]
    ++ (if artist ≠ [] then [Tag.TPE1 artist] else [])
    ++ (if album ≠ [] then [Tag.TALB album] else [])
    ++ (if genre ≠ [] then [Tag.TCON genre] else [])
    ++ (if year ≠ [] then [Tag.TDRC year] else [])

/-- Embedding of `add_metadata_to_mp3`.  The whole body runs inside a
`try` whose handler only logs, so the function returns `none` (no tags
persisted, exception swallowed) instead of propagating; cover-art and
lyrics fetch failures are already absorbed by their own handlers and
merely omit the frame. -/
def add_metadata_to_mp3 (env : Env) (mp3 : AudioFile) (videoInfo : Video)
    (metadata : Option Metadata) : Option (List Tag) :=
  if env.tagOpenRaises mp3 then none
  else
    let videoTitle := videoInfo.title.getD (toL "Unknown")
    let parsed := extract_artist_title videoTitle
    let title := mergedTitle parsed.2 metadata
    let artist := mergedArtist parsed.1 metadata
    let album := match metadata with | some m => m.album | none => []
    let genre := match metadata with | some m => m.genre | none => []
    let year := match metadata with | some m => m.year | none => []
    let artworkUrl := match metadata with | some m => m.artwork_url | none => []
    let tags := writeBasicTags title artist album genre year
    let tags := tags ++
      (match (if artworkUrl ≠ [] then env.coverArt artworkUrl else none) with
       | some d => [Tag.APIC d]
       | none => [])
    let tags := tags ++
      (if env.geniusConfigured && artist ≠ [] && title ≠ [] then
        match env.lyrics title artist with
        | some l => [Tag.USLT l]
        | none => []
      else [])
    if env.tagSaveRaises mp3 then none else some tags

/-- Final-name derivation of `process_playlist`: format with the artist
when non-empty, append the extension, and sanitize. -/
def deriveFinalName (finalArtist finalTitle : Str) : Str :=
  if finalArtist ≠ [] then
    clean_filename (finalArtist ++ toL " - " ++ finalTitle ++ toL ".mp3")
  else
    clean_filename (finalTitle ++ toL ".mp3")

/-- Per-entry result of the run. -/
inductive Outcome where
  | success (finalName : Str)
  | failed (title : Str)
deriving DecidableEq

/-- Body of the per-entry loop of `process_playlist` for a non-null
entry at 1-based position `i`: a failed or missing download records a
failure; then the title is parsed, metadata resolved, tags written
(result discarded, as in the source), the final name derived, and the
move performed — only the move can still raise inside the entry-level
`try`, turning the entry into a failure. -/
def processVideo (env : Env) (i : Nat) (video : Video) : Outcome :=
  let videoTitle := video.title.getD (toL ("Unknown Video " ++ toString i))
  match env.download video with
  | none => .failed videoTitle
  | some audioFile =>
    if !env.fileExists audioFile then .failed videoTitle
    else
      let parsed := extract_artist_title videoTitle
      let metadata := search_itunes_metadata env parsed.2 parsed.1
      let _tags := add_metadata_to_mp3 env audioFile video metadata
      let finalName :=
        deriveFinalName (mergedArtist parsed.1 metadata) (mergedTitle parsed.2 metadata)
      if env.moveRaises audioFile finalName then .failed videoTitle
      else .success finalName

/-- Loop of `process_playlist` over the enumerated entries, threading
the success count and the ordered failure list; null entries are
skipped (the `if not video: continue`). -/
def runAux (env : Env) : Nat → Nat × List Str → List (Option Video) → Nat × List Str
  | _, acc, [] => acc
  | i, acc, none :: rest => runAux env (i + 1) acc rest
  | i, acc, some v :: rest =>
    match processVideo env i v with
    | .success _ => runAux env (i + 1) (acc.1 + 1, acc.2) rest
    | .failed t => runAux env (i + 1) (acc.1, acc.2 ++ [t]) rest

/-- Embedding of the entry-processing part of `process_playlist`:
enumeration starts at 1 with zero successes and no failures. -/
def process_playlist (env : Env) (videos : List (Option Video)) : Nat × List Str :=
  runAux env 1 (0, []) videos

/-- Concrete audio file for witnesses. -/
def cFile : AudioFile := ⟨toL "f.mp3"⟩

/-- Concrete playlist entry for witnesses. -/
def cVideo : Video := ⟨some (toL "Adele - Hello")⟩

/-- Environment in which every step succeeds but the metadata lookup,
the cover-art fetch and the lyrics fetch all come back absent. -/
def cEnvOk : Env :=
  { download := fun _ => some cFile
    fileExists := fun _ => true
    itunesResponse := fun _ => none
    coverArt := fun _ => none
    geniusConfigured := true
    lyrics := fun _ _ => none
    tagOpenRaises := fun _ => false
    tagSaveRaises := fun _ => false
    moveRaises := fun _ _ => false }

/-- Environment identical to `cEnvOk` except that opening the tag store
raises, so the whole tag-writing call fails. -/
def cEnvTagRaise : Env :=
  { cEnvOk with tagOpenRaises := fun _ => true }

/-- Search result whose `artistName` key is present but empty. -/
def emptyArtistResult : RawResult :=
  { trackName := some (toL "Hello")
    artistName := some []
    collectionName := none
    primaryGenreName := none
    releaseDate := none
    artworkUrl100 := none }

/-- Membership lemma: stripping whitespace only removes characters. -/
theorem mem_of_mem_stripWs {c : Char} {s : Str} (h : c ∈ stripWs s) : c ∈ s := by
  unfold stripWs at h
  rw [List.mem_reverse] at h
  have h1 := (List.dropWhile_sublist _).subset h
  rw [List.mem_reverse] at h1
  exact (List.dropWhile_sublist _).subset h1

/-- Membership lemma: stripping dots only removes characters. -/
theorem mem_of_mem_stripDots {c : Char} {s : Str} (h : c ∈ stripDots s) : c ∈ s := by
  unfold stripDots at h
  rw [List.mem_reverse] at h
  have h1 := (List.dropWhile_sublist _).subset h
  rw [List.mem_reverse] at h1
  exact (List.dropWhile_sublist _).subset h1

/-- Membership lemma: collapsing whitespace only introduces spaces. -/
theorem mem_collapseWs {c : Char} : ∀ {s : Str}, c ∈ collapseWs s → c = ' ' ∨ c ∈ s := by
  intro s
  induction s with
  | nil => intro h; simp [collapseWs] at h
  | cons c1 tail ih =>
    cases tail with
    | nil =>
      intro h
      by_cases hw : isWs c1 = true
      · simp [collapseWs, hw] at h
        exact Or.inl h
      · simp [collapseWs, hw] at h
        simp [h]
    | cons c2 rest =>
      intro h
      by_cases hw : (isWs c1 && isWs c2) = true
      · rw [collapseWs, if_pos hw] at h
        rcases ih h with h1 | h1
        · exact Or.inl h1
        · exact Or.inr (List.mem_cons_of_mem _ h1)
      · rw [collapseWs, if_neg (by simpa using hw)] at h
        rcases List.mem_cons.mp h with h1 | h1
        · by_cases hw1 : isWs c1 = true
          · simp [hw1] at h1; exact Or.inl h1
          · simp [hw1] at h1; simp [h1]
        · rcases ih h1 with h2 | h2
          · exact Or.inl h2
          · exact Or.inr (List.mem_cons_of_mem _ h2)

/-- Membership lemma: every character of the sanitizer output is a
space or a surviving character of the invalid-character filter. -/
theorem mem_clean_filename {c : Char} {s : Str} (h : c ∈ clean_filename s) :
    c = ' ' ∨ c ∈ removeInvalid s := by
  have h1 : c ∈ (if (stripDots (stripWs (collapseWs (removeInvalid s)))).length > 200
      then (stripDots (stripWs (collapseWs (removeInvalid s)))).take 200
      else stripDots (stripWs (collapseWs (removeInvalid s)))) := h
  have h2 : c ∈ stripDots (stripWs (collapseWs (removeInvalid s))) := by
    split at h1
    · exact (List.take_sublist _ _).subset h1
    · exact h1
  exact mem_collapseWs (mem_of_mem_stripWs (mem_of_mem_stripDots h2))

/-- Match failure of the second half of a separator pattern when the
remainder holds no separator character. -/
theorem matchSepRest_none {seps : List Char} {rest : Str}
    (h : ∀ c ∈ rest, c ∉ seps) : matchSepRest seps rest = none := by
  unfold matchSepRest
  cases hd : rest.dropWhile isWs with
  | nil => rfl
  | cons c r2 =>
    have hc : c ∈ rest := (List.dropWhile_sublist _).subset (by rw [hd]; exact List.mem_cons_self c r2)
    simp [h c hc]

/-- Match failure of a separator pattern on a string holding no
separator character. -/
theorem matchSepAux_none {seps : List Char} :
    ∀ (s : Str) (racc : Str), (∀ c ∈ s, c ∉ seps) →
      matchSepAux seps racc s = none := by
  intro s
  induction s with
  | nil => intro racc h; rfl
  | cons c rest ih =>
    intro racc h
    have hrest : ∀ d ∈ rest, d ∉ seps :=
      fun d hd => h d (List.mem_cons_of_mem _ hd)
    unfold matchSepAux
    rw [matchSepRest_none hrest]
    by_cases hnl : c = '\n'
    · simp [hnl]
    · simp only [if_neg hnl]
      exact ih _ hrest

/-- Match failure of `reMatchSep` on a string with no separator character. -/
theorem reMatchSep_none {seps : List Char} {s : Str}
    (h : ∀ c ∈ s, c ∉ seps) : reMatchSep seps s = none :=
  matchSepAux_none s [] h

/-- Dash separators are separator characters. -/
theorem dash_sub (c : Char) (h : c ∉ sepChars) : c ∉ dashSeps := by
  revert h
  simp [sepChars, dashSeps]
  tauto

/-- Colon is a separator character. -/
theorem colon_sub (c : Char) (h : c ∉ sepChars) : c ∉ [':'] := by
  revert h
  simp [sepChars]
  tauto

/-- Pipe is a separator character. -/
theorem pipe_sub (c : Char) (h : c ∉ sepChars) : c ∉ ['|'] := by
  revert h
  simp [sepChars]

/-- Fallback case of the title parser: with no separator character in
the raw title, none of the three patterns can match, so the artist is
empty and the title is the stripped raw title. -/
theorem extract_no_sep {raw : Str} (h : ∀ c ∈ raw, c ∉ sepChars) :
    extract_artist_title raw = ([], stripWs raw) := by
  have hs : ∀ c ∈ stripWs raw, c ∉ sepChars :=
    fun c hc => h c (mem_of_mem_stripWs hc)
  unfold extract_artist_title
  rw [reMatchSep_none (fun c hc => dash_sub c (hs c hc)),
    reMatchSep_none (fun c hc => colon_sub c (hs c hc)),
    reMatchSep_none (fun c hc => pipe_sub c (hs c hc))]

/-- Non-emptiness of stripping: a string with a non-whitespace
character does not strip to the empty string. -/
theorem stripWs_ne_nil {s : Str} (h : ∃ c ∈ s, isWs c = false) : stripWs s ≠ [] := by
  obtain ⟨c, hc, hw⟩ := h
  intro he
  unfold stripWs at he
  rw [List.reverse_eq_nil_iff, List.dropWhile_eq_nil_iff] at he
  have h1 : c ∈ s.dropWhile isWs := by
    have hsplit : c ∈ s.takeWhile isWs ++ s.dropWhile isWs := by
      rw [List.takeWhile_append_dropWhile]; exact hc
    rcases List.mem_append.mp hsplit with h2 | h2
    · exact absurd (List.mem_takeWhile_imp h2) (by simp [hw])
    · exact h2
  exact absurd (he c (List.mem_reverse.mpr h1)) (by simp [hw])

/-- Accumulator form of the suffix-removal scan. -/
theorem stripEncAux_eq (op cl : Char) :
    ∀ (t acc : Str), stripEncAux op cl acc t = acc.reverse ++ stripEncAux op cl [] t := by
  intro t
  induction t with
  | nil => intro acc; simp [stripEncAux]
  | cons c rest ih =>
    intro acc
    by_cases h : startsMatch op cl (c :: rest) = true
    · simp [stripEncAux, h]
    · simp only [stripEncAux, if_neg h]
      rw [ih (c :: acc), ih [c]]
      simp

/-- Characterization of the suffix removal: either no position of the
title starts a match and the title is unchanged, or the title is cut at
the leftmost position that starts a match. -/
theorem stripEnclosedSuffix_spec (op cl : Char) :
    ∀ t : Str,
      (stripEnclosedSuffix op cl t = t ∧ ∀ p, startsMatch op cl (t.drop p) = false)
      ∨ (∃ p, stripEnclosedSuffix op cl t = t.take p ∧ startsMatch op cl (t.drop p) = true
          ∧ ∀ q, q < p → startsMatch op cl (t.drop q) = false) := by
  intro t
  induction t with
  | nil =>
    left
    refine ⟨rfl, fun p => ?_⟩
    rw [List.drop_nil]
    rfl
  | cons c rest ih =>
    have hunf : stripEnclosedSuffix op cl (c :: rest)
        = if startsMatch op cl (c :: rest) then [] else c :: stripEnclosedSuffix op cl rest := by
      unfold stripEnclosedSuffix
      by_cases h : startsMatch op cl (c :: rest) = true
      · simp [stripEncAux, h]
      · simp only [stripEncAux, if_neg h]
        rw [stripEncAux_eq op cl rest [c]]
        rfl
    by_cases h : startsMatch op cl (c :: rest) = true
    · right
      exact ⟨0, by simp [hunf, h], h, fun q hq => absurd hq (Nat.not_lt_zero q)⟩
    · have hf : startsMatch op cl (c :: rest) = false := by simpa using h
      rcases ih with ⟨e, hall⟩ | ⟨p, e, hm, hlt⟩
      · left
        refine ⟨by rw [hunf, if_neg h, e], fun p => ?_⟩
        cases p with
        | zero => simpa using hf
        | succ p => simpa using hall p
      · right
        refine ⟨p + 1, ?_, by simpa using hm, fun q hq => ?_⟩
        · rw [hunf, if_neg h, e]
          rfl
        · cases q with
          | zero => simpa using hf
          | succ q => simpa using hlt q (Nat.lt_of_succ_lt_succ hq)

/-- Counting invariant of the playlist loop: each non-null entry adds
exactly one outcome, to the success count or to the failure list. -/
theorem runAux_count (env : Env) :
    ∀ (vs : List (Option Video)) (i a : Nat) (l : List Str),
      (runAux env i (a, l) vs).1 + ((runAux env i (a, l) vs).2).length
        = a + l.length + vs.countP (fun v => v.isSome) := by
  intro vs
  induction vs with
  | nil => intro i a l; simp [runAux]
  | cons v rest ih =>
    intro i a l
    cases v with
    | none => simp [runAux, List.countP_cons, ih]
    | some w =>
      cases hp : processVideo env i w with
      | success n =>
        simp only [runAux, hp]
        rw [ih]
        simp [List.countP_cons]
        omega
      | failed t =>
        simp only [runAux, hp]
        rw [ih]
        simp [List.countP_cons]
        omega

/-- Null-only playlists leave the accumulator untouched. -/
theorem runAux_replicate_none (env : Env) :
    ∀ (n i : Nat) (acc : Nat × List Str),
      runAux env i acc (List.replicate n none) = acc := by
  intro n
  induction n with
  | zero => intro i acc; rfl
  | succ n ih => intro i acc; rw [List.replicate_succ, runAux]; exact ih _ _

/-- Splitting the entry count into non-null and null entries. -/
theorem countP_isSome_add_isNone (vs : List (Option Video)) :
    vs.countP (fun v => v.isSome) + vs.countP (fun v => v.isNone) = vs.length := by
  induction vs with
  | nil => rfl
  | cons v rest ih =>
    cases v <;> simp [List.countP_cons] <;> omega

/-- Success path of one entry: when the download yields an existing
file and the move does not raise, the entry succeeds, whatever the
metadata, cover-art, lyrics and tag oracles do. -/
theorem processVideo_success (env : Env) (i : Nat) (v : Video) (f : AudioFile)
    (hd : env.download v = some f) (he : env.fileExists f = true)
    (hm : ∀ n, env.moveRaises f n = false) :
    ∃ n, processVideo env i v = .success n := by
  unfold processVideo
  rw [hd]
  simp [he, hm]

/-- Claim C1: in every playlist run over N entries of which K are
null, the null entries are skipped without being counted, every
non-null entry contributes exactly one recorded outcome, and at the end
of the loop successCount + len(failures) = N - K. -/
theorem claimC1_outcome_count (env : Env) (videos : List (Option Video)) :
    (process_playlist env videos).1 + (process_playlist env videos).2.length
        = videos.length - videos.countP (fun v => v.isNone)
    ∧ (process_playlist env videos).1 + (process_playlist env videos).2.length
        = videos.countP (fun v => v.isSome)
    ∧ (∀ n : Nat, process_playlist env (List.replicate n none) = (0, [])) := by
  have hc := runAux_count env videos 1 0 []
  have hs := countP_isSome_add_isNone videos
  simp only [List.length_nil, Nat.zero_add, Nat.add_zero] at hc
  unfold process_playlist
  refine ⟨?_, ?_, fun n => runAux_replicate_none env n 1 (0, [])⟩
  · omega
  · omega

/-- Claim C2: for an entry whose media fetch, tag write and final move
succeed, the entry's outcome is a success whatever the metadata,
cover-art and lyrics oracles answer — in particular when all three
return absent — and the entry is counted as a success in the run
summary. -/
theorem claimC2_optional_failures_nonfatal (env : Env) (i : Nat) (v : Video) (f : AudioFile)
    (hd : env.download v = some f) (he : env.fileExists f = true)
    (_hopen : env.tagOpenRaises f = false) (_hsave : env.tagSaveRaises f = false)
    (hm : ∀ n, env.moveRaises f n = false) :
    (∃ n, processVideo env i v = .success n)
    ∧ (∃ n, processVideo
        { env with itunesResponse := fun _ => none, coverArt := fun _ => none,
                   lyrics := fun _ _ => none } i v = .success n)
    ∧ process_playlist env [some v] = (1, []) := by
  refine ⟨processVideo_success env i v f hd he hm,
    processVideo_success _ i v f hd he hm, ?_⟩
  obtain ⟨n, hn⟩ := processVideo_success env 1 v f hd he hm
  simp [process_playlist, runAux, hn]

/-- Claim C2 witness. -/
theorem claimC2_witness :
    (∃ n, processVideo cEnvOk 1 cVideo = .success n)
    ∧ (∃ n, processVideo
        { cEnvOk with itunesResponse := fun _ => none, coverArt := fun _ => none,
                      lyrics := fun _ _ => none } 1 cVideo = .success n)
    ∧ process_playlist cEnvOk [some cVideo] = (1, []) :=
  claimC2_optional_failures_nonfatal cEnvOk 1 cVideo cFile rfl rfl rfl rfl (fun _ => rfl)

/-- Claim C3 counterexample: a canonical record whose artist field is
present but empty (reachable from a catalog response whose artistName
key holds the empty string) overrides the non-empty parsed artist, so
an empty canonical field does not leave the parsed value in effect. -/
theorem claimC3_counterexample :
    mergedArtist (toL "Queen")
        (resolveResponse (toL "Hello") (toL "Queen") (some ⟨[emptyArtistResult]⟩)) = []
    ∧ ([] : Str) ≠ toL "Queen" := by
  exact ⟨rfl, by decide⟩

/-- Claim C3 amended: a present `CanonicalMetadata` record overrides
every parsed field — even with an empty value, since the resolver
always populates all six keys; keys can only be absent at the resolver
level, where trackName and artistName fall back to the parsed inputs;
an absent record leaves the parsed values untouched. -/
theorem claimC3_amended :
    (∀ (pt pa : Str) (m : Metadata),
      mergedTitle pt (some m) = m.title ∧ mergedArtist pa (some m) = m.artist)
    ∧ (∀ pt pa : Str, mergedTitle pt none = pt ∧ mergedArtist pa none = pa)
    ∧ (∀ (pt pa : Str) (r : RawResult),
        (normalizeResult pt pa { r with trackName := none, artistName := none }).title = pt
        ∧ (normalizeResult pt pa { r with trackName := none, artistName := none }).artist = pa
        ∧ ∀ t a : Str,
            (normalizeResult pt pa { r with trackName := some t, artistName := some a }).title = t
            ∧ (normalizeResult pt pa { r with trackName := some t, artistName := some a }).artist = a) :=
  ⟨fun _ _ _ => ⟨rfl, rfl⟩, fun _ _ => ⟨rfl, rfl⟩,
    fun _ _ _ => ⟨rfl, rfl, fun _ _ => ⟨rfl, rfl⟩⟩⟩

/-- Claim C4 counterexample: for the non-empty raw title
"A - (Official Video)" the suffix stripping empties the right group, so
the merged title handed to the tag writer and the filename deriver is
the empty string — there is no fallback to the raw playlist title. -/
theorem claimC4_counterexample :
    (extract_artist_title (toL "A - (Official Video)")).2 = []
    ∧ mergedTitle (extract_artist_title (toL "A - (Official Video)")).2 none = []
    ∧ stripWs (toL "A - (Official Video)") ≠ [] := by
  decide

/-- Claim C4 amended: the merged title can be empty (the code never
falls back to the raw playlist title); it is guaranteed non-empty only
when no separator pattern fires, in which case it is the stripped raw
title, non-empty whenever the raw title has a non-whitespace
character. -/
theorem claimC4_amended (raw : Str)
    (hsep : raw.all (fun c => !(sepChars.contains c)) = true)
    (hnw : raw.any (fun c => !(isWs c)) = true) :
    mergedTitle (extract_artist_title raw).2 none ≠ []
    ∧ (extract_artist_title raw).2 = stripWs raw := by
  have h1 : ∀ c ∈ raw, c ∉ sepChars := by
    intro c hc
    have := (List.all_eq_true.mp hsep) c hc
    simpa using this
  have h2 : ∃ c ∈ raw, isWs c = false := by
    obtain ⟨c, hc, hw⟩ := List.any_eq_true.mp hnw
    exact ⟨c, hc, by simpa using hw⟩
  have he := extract_no_sep h1
  refine ⟨?_, by rw [he]⟩
  rw [he]
  exact stripWs_ne_nil h2

/-- Claim C4 amended witness. -/
theorem claimC4_witness :
    mergedTitle (extract_artist_title (toL "abc")).2 none ≠ []
    ∧ (extract_artist_title (toL "abc")).2 = stripWs (toL "abc") :=
  claimC4_amended (toL "abc") (by decide) (by decide)

/-- Claim C5 counterexample: sanitizing ". a ." yields " a ", which has
leading and trailing whitespace, and sanitizing it again yields "a", so
the sanitizer is not idempotent. -/
theorem claimC5_counterexample :
    clean_filename (toL ". a .") = toL " a "
    ∧ clean_filename (clean_filename (toL ". a .")) ≠ clean_filename (toL ". a .")
    ∧ (clean_filename (toL ". a .")).head? = some ' ' := by
  decide

/-- Claim C5 amended: the sanitizer output never contains one of the
nine forbidden characters and never exceeds 200 characters; it is not
idempotent, and leading or trailing whitespace and dots can survive
(dot stripping runs after whitespace stripping and truncation runs
last). -/
theorem claimC5_amended (s : Str) :
    (clean_filename s).all (fun c => !(invalidChars.contains c)) = true
    ∧ (clean_filename s).length ≤ 200 := by
  constructor
  · rw [List.all_eq_true]
    intro c hc
    rcases mem_clean_filename hc with h | h
    · subst h; decide
    · simpa using List.of_mem_filter h
  · have h1 : clean_filename s
        = (if (stripDots (stripWs (collapseWs (removeInvalid s)))).length > 200
          then (stripDots (stripWs (collapseWs (removeInvalid s)))).take 200
          else stripDots (stripWs (collapseWs (removeInvalid s)))) := rfl
    rw [h1]
    split
    · rw [List.length_take]
      omega
    · omega

/-- Claim C6 counterexample: on "X - T (a) (b)" the code's suffix
substitution removes both trailing parenthesized groups at once (the
match starts at the first opening parenthesis that reaches the final
closing one), not exactly one. -/
theorem claimC6_counterexample :
    extract_artist_title (toL "X - T (a) (b)") = (toL "X", toL "T")
    ∧ toL "T" ≠ toL "T (a)" := by
  decide

/-- Claim C6 amended: the parser tries dash, then colon, then pipe, and
the first matching pattern wins; when no pattern matches (in particular
when no separator character occurs) the artist is empty and the title
is the full trimmed raw string; on a match, each of the two suffix
substitutions (parenthesized first, then bracketed) removes the region
from the leftmost position where a suffix match starts to the end of
the title — possibly spanning several groups — or leaves the title
unchanged when no position starts a match. -/
theorem claimC6_amended :
    (∀ s : Str, s.all (fun c => !(sepChars.contains c)) = true →
      extract_artist_title s = ([], stripWs s))
    ∧ (∀ (s g1 g2 : Str), reMatchSep dashSeps (stripWs s) = some (g1, g2) →
        extract_artist_title s = (stripWs g1, stripSuffixes (stripWs g2)))
    ∧ (∀ (s g1 g2 : Str), reMatchSep dashSeps (stripWs s) = none →
        reMatchSep [':'] (stripWs s) = some (g1, g2) →
        extract_artist_title s = (stripWs g1, stripSuffixes (stripWs g2)))
    ∧ (∀ (s g1 g2 : Str), reMatchSep dashSeps (stripWs s) = none →
        reMatchSep [':'] (stripWs s) = none →
        reMatchSep ['|'] (stripWs s) = some (g1, g2) →
        extract_artist_title s = (stripWs g1, stripSuffixes (stripWs g2)))
    ∧ (∀ (op cl : Char) (t : Str),
        (stripEnclosedSuffix op cl t = t ∧ ∀ p, startsMatch op cl (t.drop p) = false)
        ∨ (∃ p, stripEnclosedSuffix op cl t = t.take p
            ∧ startsMatch op cl (t.drop p) = true
            ∧ ∀ q, q < p → startsMatch op cl (t.drop q) = false)) := by
  refine ⟨?_, ?_, ?_, ?_, stripEnclosedSuffix_spec⟩
  · intro s hall
    refine extract_no_sep ?_
    intro c hc
    have := (List.all_eq_true.mp hall) c hc
    simpa using this
  · intro s g1 g2 h
    unfold extract_artist_title
    rw [h]
  · intro s g1 g2 h1 h2
    unfold extract_artist_title
    rw [h1, h2]
  · intro s g1 g2 h1 h2 h3
    unfold extract_artist_title
    rw [h1, h2, h3]

/-- Claim C6 amended witness. -/
theorem claimC6_witness :
    extract_artist_title (toL "no separators here") = ([], stripWs (toL "no separators here"))
    ∧ extract_artist_title (toL "A - B") = (stripWs (toL "A"), stripSuffixes (stripWs (toL "B")))
    ∧ extract_artist_title (toL "A : B") = (stripWs (toL "A"), stripSuffixes (stripWs (toL "B")))
    ∧ extract_artist_title (toL "A | B") = (stripWs (toL "A"), stripSuffixes (stripWs (toL "B"))) :=
  ⟨claimC6_amended.1 (toL "no separators here") (by decide),
   claimC6_amended.2.1 (toL "A - B") (toL "A") (toL "B") (by decide),
   claimC6_amended.2.2.1 (toL "A : B") (toL "A") (toL "B") (by decide) (by decide),
   claimC6_amended.2.2.2.1 (toL "A | B") (toL "A") (toL "B") (by decide) (by decide) (by decide)⟩

/-- Claim C7 counterexample: the title frame is written
unconditionally, so an empty placeholder title tag is written when the
merged title is empty. -/
theorem claimC7_counterexample :
    writeBasicTags [] [] [] [] [] = [Tag.TIT2 []]
    ∧ Tag.TIT2 [] ∈ writeBasicTags [] [] [] [] [] := by
  decide

/-- Claim C7 amended: the title frame is always written, even when
empty; the artist, album, genre and year frames are each written
exactly when their value is non-empty, so no empty placeholder is
written for any field except the title. -/
theorem claimC7_amended (title artist album genre year : Str) :
    Tag.TIT2 title ∈ writeBasicTags title artist album genre year
    ∧ (Tag.TPE1 artist ∈ writeBasicTags title artist album genre year ↔ artist ≠ [])
    ∧ (Tag.TALB album ∈ writeBasicTags title artist album genre year ↔ album ≠ [])
    ∧ (Tag.TCON genre ∈ writeBasicTags title artist album genre year ↔ genre ≠ [])
    ∧ (Tag.TDRC year ∈ writeBasicTags title artist album genre year ↔ year ≠ [])
    ∧ (∀ s, Tag.TPE1 s ∈ writeBasicTags title artist album genre year → s ≠ [])
    ∧ (∀ s, Tag.TALB s ∈ writeBasicTags title artist album genre year → s ≠ [])
    ∧ (∀ s, Tag.TCON s ∈ writeBasicTags title artist album genre year → s ≠ [])
    ∧ (∀ s, Tag.TDRC s ∈ writeBasicTags title artist album genre year → s ≠ []) := by
  unfold writeBasicTags
  split_ifs with h1 h2 h3 h4 <;> simp_all

/-- Claim C7 amended witness. -/
theorem claimC7_witness :
    Tag.TIT2 (toL "T") ∈ writeBasicTags (toL "T") [] [] [] (toL "2009")
    ∧ Tag.TDRC (toL "2009") ∈ writeBasicTags (toL "T") [] [] [] (toL "2009") :=
  ⟨(claimC7_amended (toL "T") [] [] [] (toL "2009")).1,
   (claimC7_amended (toL "T") [] [] [] (toL "2009")).2.2.2.2.1.mpr (by decide)⟩

/-- Claim C8 counterexample: in an environment where opening the tag
store raises, the exception is swallowed inside the tag writer (which
yields no tags) and the entry is still moved and recorded as a success
— the claimed Failed(reason) outcome never appears. -/
theorem claimC8_counterexample :
    add_metadata_to_mp3 cEnvTagRaise cFile cVideo
        (search_itunes_metadata cEnvTagRaise
          (extract_artist_title (toL "Adele - Hello")).2
          (extract_artist_title (toL "Adele - Hello")).1) = none
    ∧ processVideo cEnvTagRaise 1 cVideo = .success (toL "Adele - Hello.mp3") := by
  exact ⟨rfl, by decide⟩

/-- Claim C8 amended: an exception during tag open, field write or
save is caught inside the tag writer and only suppresses the tags; it
does not surface as a Failed outcome — if the download succeeded and
the move does not raise, the entry is still placed and counted a
success, and the run is not aborted. -/
theorem claimC8_amended (env : Env) (i : Nat) (v : Video) (f : AudioFile)
    (hd : env.download v = some f) (he : env.fileExists f = true)
    (hopen : env.tagOpenRaises f = true) (hm : ∀ n, env.moveRaises f n = false) :
    (∀ (vi : Video) (m : Option Metadata), add_metadata_to_mp3 env f vi m = none)
    ∧ (∃ n, processVideo env i v = .success n) :=
  ⟨fun vi m => by simp [add_metadata_to_mp3, hopen],
   processVideo_success env i v f hd he hm⟩

/-- Claim C8 amended witness. -/
theorem claimC8_witness :
    (∀ (vi : Video) (m : Option Metadata), add_metadata_to_mp3 cEnvTagRaise cFile vi m = none)
    ∧ (∃ n, processVideo cEnvTagRaise 1 cVideo = .success n) :=
  claimC8_amended cEnvTagRaise 1 cVideo cFile rfl rfl rfl (fun _ => rfl)

/-- Claim C9: when the catalog response holds at least one candidate,
the first candidate is accepted unconditionally; the year is the first
four characters of the candidate's release-date string and empty when
the key is absent; the artwork URL is rewritten by substituting 100x100
with 600x600; a network failure or an empty result set yields absent. -/
theorem claimC9_first_result (title artist : Str) (r : RawResult) (rest : List RawResult) :
    resolveResponse title artist (some ⟨r :: rest⟩) = some (normalizeResult title artist r)
    ∧ resolveResponse title artist none = none
    ∧ resolveResponse title artist (some ⟨[]⟩) = none
    ∧ (normalizeResult title artist r).year = (r.releaseDate.getD []).take 4
    ∧ (normalizeResult title artist r).artwork_url = replace100x100 (r.artworkUrl100.getD [])
    ∧ replace100x100 (toL "https://img/100x100bb.jpg") = toL "https://img/600x600bb.jpg" := by
  refine ⟨rfl, rfl, rfl, ?_, rfl, by decide⟩
  rcases hrd : r.releaseDate with _ | d
  · simp [normalizeResult, hrd]
  · cases d <;> simp [normalizeResult, hrd]

/-- Claim C10: the derived final filename is not guaranteed to end in
".mp3": with empty artist and title the name ".mp3" is sanitized to
"mp3" (leading dots are stripped), and a 200-character title loses the
extension to truncation. -/
theorem claimC10_extension_not_guaranteed :
    deriveFinalName [] [] = toL "mp3"
    ∧ (toL ".mp3").isSuffixOf (deriveFinalName [] []) = false
    ∧ deriveFinalName [] (List.replicate 200 'a') = List.replicate 200 'a'
    ∧ (toL ".mp3").isSuffixOf (deriveFinalName [] (List.replicate 200 'a')) = false := by
  decide

end PyTunes
